import Mathlib

set_option maxHeartbeats 1000000

namespace PallasBot

/-! Shallow embedding of `src/bot/plugins/repeater/model.py` (the Pallas-Bot
repeater engine).  Messages and keyword signatures are `String`s; keyword
extraction is an external collaborator, so a record's `keywords` field holds
its already-extracted signature.  The Mongo `context` collection is a list of
`ContextEntry` (find_one = first match, insert_one = append, update_one =
update the first matching document).  The in-memory dicts `_message_dict` and
`_reply_dict` are association lists keyed by group id. -/

/-- `listStartsWith pre l` decides whether `pre` is a prefix of `l`. -/
def listStartsWith [DecidableEq α] : List α → List α → Bool
  | [], _ => true
  | _ :: _, [] => false
  | a :: as, b :: bs => a == b && listStartsWith as bs

/-- `listHasSegment needle hay` decides whether `needle` occurs contiguously in
`hay`. -/
def listHasSegment [DecidableEq α] (needle : List α) : List α → Bool
  | [] => needle.isEmpty
  | b :: bs => listStartsWith needle (b :: bs) || listHasSegment needle bs

/-- Python's `needle in haystack` on strings. -/
def strContains (hay needle : String) : Bool :=
  listHasSegment needle.data hay.data

/-- Python's `s.startswith(pre)`. -/
def strStartsWith (s pre : String) : Bool :=
  listStartsWith pre.data s.data

/-- Python's `s.strip()`: drop leading and trailing whitespace. -/
def strStrip (s : String) : List Char :=
  ((s.data.dropWhile (·.isWhitespace)).reverse.dropWhile (·.isWhitespace)).reverse

/-- Python's `s.split(sep)` for a one-character separator, on char lists. -/
def splitChars (sep : Char) : List Char → List (List Char)
  | [] => [[]]
  | c :: rest =>
    if c == sep then [] :: splitChars sep rest
    else (c :: (splitChars sep rest).headD []) :: (splitChars sep rest).tail

/-- Python's `s.split(sep)` for a one-character separator. -/
def strSplit (s : String) (sep : Char) : List String :=
  (splitChars sep s.data).map (fun l => ⟨l⟩)

/-- Python `lst[-n:]`: the last `n` elements (the whole list when shorter). -/
def takeLast (n : Nat) (l : List α) : List α :=
  l.drop (l.length - n)

/-- Mirrors `ChatData`: one incoming chat event, with the derived keyword
signature already computed (the extractor is an external collaborator). -/
structure ChatData where
  group_id : Int
  user_id : Int
  raw_message : String
  plain_text : String
  time : Int
  keywords : String
deriving DecidableEq

/-- `ChatData.is_plain_text`: no CQ rich-media markup and non-empty plain text. -/
def ChatData.is_plain_text (c : ChatData) : Bool :=
  !strContains c.raw_message "[CQ:" && c.plain_text.length != 0

/-- `ChatData.is_image`: raw text carries an image or sticker marker. -/
def ChatData.is_image (c : ChatData) : Bool :=
  strContains c.raw_message "[CQ:image," || strContains c.raw_message "[CQ:face,"

/-- One record of `Chat._message_dict` (the dict built in `_message_insert`). -/
structure MsgRec where
  group_id : Int
  user_id : Int
  raw_message : String
  is_plain_text : Bool
  plain_text : String
  keywords : String
  time : Int
deriving DecidableEq

/-- One record of `Chat._reply_dict` (the dict built in `yield_results`). -/
structure ReplyRec where
  time : Int
  pre_raw_message : String
  pre_keywords : String
  reply : String
deriving DecidableEq

/-- Nested answer document of a context document. -/
structure AnswerEntry where
  keywords : String
  group_id : Int
  count : Int
  messages : List String
deriving DecidableEq

/-- Element of the optional `ban` array of a context document. -/
structure BanEntry where
  keywords : String
  group_id : Int
deriving DecidableEq

/-- One document of the `context` Mongo collection.  A document without a
`ban` field is modelled with `ban = []` (the code reads a missing field as
producing no ban keywords). -/
structure ContextEntry where
  keywords : String
  time : Int
  count : Int
  answers : List AnswerEntry
  ban : List BanEntry
deriving DecidableEq

/-- Class attribute `Chat.answer_threshold`. -/
def answer_threshold : Int := 3
/-- Class attribute `Chat.cross_group_threshold`. -/
def cross_group_threshold : Nat := 3
/-- Class attribute `Chat.repeat_threshold`. -/
def repeat_threshold : Nat := 3
/-- Class attribute `Chat._save_reserve_size`. -/
def save_reserve_size : Nat := 100
/-- Class attribute `Chat.save_count_threshold`. -/
def save_count_threshold : Nat := 1000
/-- Class attribute `Chat.save_time_threshold`. -/
def save_time_threshold : Int := 3600

/-- Lookup in a Python dict modelled as an association list. -/
def dictGet (d : List (Int × α)) (k : Int) : Option α :=
  (d.find? (fun p => p.fst == k)).map (·.snd)

/-- Python dict assignment `d[k] = v` (keys are unique in a real dict). -/
def dictSet (d : List (Int × α)) (k : Int) (v : α) : List (Int × α) :=
  if d.any (fun p => p.fst == k) then
    d.map (fun p => if p.fst == k then (k, v) else p)
  else d ++ [(k, v)]

/-- The whole mutable state of the `Chat` class plus the durable stores:
`_message_dict`, `_reply_dict`, the `context` collection, `_late_save_time`,
and the `message` collection that `_sync` batch-inserts into. -/
structure ChatState where
  message_dict : List (Int × List MsgRec)
  reply_dict : List (Int × List ReplyRec)
  context : List ContextEntry
  late_save_time : Int
  message_db : List MsgRec
deriving DecidableEq

/-- The dict literal appended in `_message_insert`. -/
def msgRecOf (c : ChatData) : MsgRec :=
  ⟨c.group_id, c.user_id, c.raw_message, c.is_plain_text, c.plain_text,
   c.keywords, c.time⟩

/-- Mongo `update_one`: apply `f` to the first element satisfying `q`. -/
def updateFirstMatch (q : α → Bool) (f : α → α) : List α → List α
  | [] => []
  | x :: xs => if q x then f x :: xs else x :: updateFirstMatch q f xs

/-- The `update_value` applied to an existing context document in
`_context_insert`: bump the aggregate count, refresh the time, and either
increment the matching answer (pushing the raw text) or push a new answer. -/
def applyContextUpdate (c : ChatData) (e : ContextEntry) : ContextEntry :=
  if e.answers.any (fun a => a.group_id == c.group_id && a.keywords == c.keywords) then
    { e with
      time := c.time
      count := e.count + 1
      answers := updateFirstMatch
        (fun a => a.group_id == c.group_id && a.keywords == c.keywords)
        (fun a => { a with
          count := a.count + 1
          messages := a.messages ++ [c.raw_message] })
        e.answers }
  else
    { e with
      time := c.time
      count := e.count + 1
      answers := e.answers ++ [⟨c.keywords, c.group_id, 1, [c.raw_message]⟩] }

/-- `Chat._context_insert`: learn the stimulus `pre` → response `c` pair. -/
def contextInsert (ctx : List ContextEntry) (c : ChatData) (pre : Option MsgRec) :
    List ContextEntry :=
  match pre with
  | none => ctx
  | some pre_msg =>
    if pre_msg.raw_message == c.raw_message then ctx
    else if strContains c.raw_message "[CQ:reply," then ctx
    else if ctx.any (fun e => e.keywords == pre_msg.keywords) then
      updateFirstMatch (fun e => e.keywords == pre_msg.keywords)
        (applyContextUpdate c) ctx
    else
      ctx ++ [⟨pre_msg.keywords, c.time, 1,
              [⟨c.keywords, c.group_id, 1, [c.raw_message]⟩], []⟩]

/-- `Chat._sync` without the durable write: collect the batch of records newer
than the watermark and, when the batch is non-empty, trim every group list to
the newest reserve-size records and advance the watermark.  Returns
`(batch, new message_dict, new watermark)`. -/
def syncCore (md : List (Int × List MsgRec)) (late cur : Int) :
    List MsgRec × List (Int × List MsgRec) × Int :=
  let save_list := ((md.map Prod.snd).flatten).filter (fun m => decide (late < m.time))
  if save_list.isEmpty then ([], md, late)
  else (save_list, md.map (fun p => (p.fst, takeLast save_reserve_size p.snd)), cur)

/-- `Chat._sync`: the in-memory step of `syncCore` followed by the durable
batch insert; `writeOk` models whether the durable write succeeds. -/
def sync (writeOk : Bool) (st : ChatState) (cur : Int) : ChatState :=
  let r := syncCore st.message_dict st.late_save_time cur
  { st with
    message_dict := r.snd.fst
    late_save_time := r.snd.snd
    message_db := if writeOk then st.message_db ++ r.fst else st.message_db }

/-- `Chat._message_insert`: append the record to the group's cache, handle the
unset-watermark initialization, and run the flush trigger check. -/
def messageInsert (st : ChatState) (c : ChatData) (writeOk : Bool) : ChatState :=
  let gid := c.group_id
  let md :=
    match dictGet st.message_dict gid with
    | none => dictSet st.message_dict gid [msgRecOf c]
    | some l => dictSet st.message_dict gid (l ++ [msgRecOf c])
  let st1 := { st with message_dict := md }
  let cur_time := c.time
  if st1.late_save_time == 0 then { st1 with late_save_time := cur_time - 1 }
  else if decide (save_count_threshold < ((dictGet st1.message_dict gid).getD []).length) then
    sync writeOk st1 cur_time
  else if decide (save_time_threshold < cur_time - st1.late_save_time) then
    sync writeOk st1 cur_time
  else st1

/-- The backward scan of `Chat.learn`: when the previous message is from a
different user, find the most recent cached message (bounded by the slice
`group_msg[:-_save_reserve_size:-1]`) sent by the same user as `c`. -/
def learnSecondTarget (group_msg : List MsgRec) (c : ChatData) : Option MsgRec :=
  match group_msg.getLast? with
  | none => none
  | some p =>
    if p.user_id == c.user_id then none
    else (group_msg.reverse.take (save_reserve_size - 1)).find?
      (fun m => m.user_id == c.user_id)

/-- `Chat.learn`: reject blank messages, run the context update from the
group's previous message and possibly from the same user's previous message,
then insert the message into the cache. -/
def learn (st : ChatState) (c : ChatData) (writeOk : Bool) : ChatState × Bool :=
  if (strStrip c.raw_message).length == 0 then (st, false)
  else
    let st1 :=
      match dictGet st.message_dict c.group_id with
      | none => st
      | some group_msg =>
        let ctx1 := contextInsert st.context c group_msg.getLast?
        let ctx2 := contextInsert ctx1 c (learnSecondTarget group_msg c)
        { st with context := ctx2 }
    (messageInsert st1 c writeOk, true)

/-- Outcomes of the random draws inside `_context_find` / `answer`:
`sane = true` is the `random.random() >= lose_sanity_probability` branch,
`pickAnswer` resolves the weighted `random.choices` over the filtered pool,
`pickMessage` resolves `random.choice` over the messages, and `doSplit` the
`random.random() < split_probability` draw. -/
structure Rand where
  sane : Bool
  pickAnswer : Nat
  pickMessage : Nat
  doSplit : Bool
deriving DecidableEq

/-- Default used only to totalize list indexing whose bounds are established
separately. -/
def defaultAnswer : AnswerEntry := ⟨"", 0, 0, []⟩

/-- The repeat check at the top of `_context_find`: the group's cache is
non-empty, holds at least `repeat_threshold` messages, and every message in
the Python slice `group_msg[:-repeat_threshold:-1]` (i.e. the last
`repeat_threshold - 1` messages) equals the current raw text. -/
def repeatOverride (md : List (Int × List MsgRec)) (gid : Int) (raw : String) : Bool :=
  match dictGet md gid with
  | none => false
  | some l =>
    !l.isEmpty && decide (repeat_threshold ≤ l.length) &&
      (l.reverse.take (repeat_threshold - 1)).all (fun m => m.raw_message == raw)

/-- The ban keywords collected for the current group in `_context_find`. -/
def banKeywordsOf (e : ContextEntry) (gid : Int) : List String :=
  (e.ban.filter (fun b => b.group_id == gid)).map (·.keywords)

/-- The `all_answers` threshold filter of `_context_find`, with the extra
rich-media restriction when the incoming message is an image. -/
def candidateAnswers (e : ContextEntry) (c : ChatData) (thr : Int) : List AnswerEntry :=
  if !c.is_image then
    e.answers.filter (fun a => decide (thr ≤ a.count))
  else
    e.answers.filter (fun a => decide (thr ≤ a.count) && strStartsWith a.keywords "[CQ:")

/-- `answers_count[key] += 1` on the defaultdict of `_context_find`. -/
def bumpCount (counts : String → Nat) (k : String) : String → Nat :=
  fun s => if s = k then counts k + 1 else counts s

/-- The ban / same-group / cross-group-promotion loop of `_context_find`,
with `counts` the running `answers_count` defaultdict. -/
def filterLoop (banKs : List String) (gid : Int) (counts : String → Nat) :
    List AnswerEntry → List AnswerEntry
  | [] => []
  | a :: rest =>
    if banKs.contains a.keywords then filterLoop banKs gid counts rest
    else if a.group_id == gid then a :: filterLoop banKs gid counts rest
    else if counts a.keywords + 1 == cross_group_threshold then
      a :: filterLoop banKs gid (bumpCount counts a.keywords) rest
    else filterLoop banKs gid (bumpCount counts a.keywords) rest

/-- Where `_context_find` ends up before any random selection: the repeat
echo, no reply at all, or a non-empty filtered candidate pool. -/
inductive FindOutcome where
  | noReply : FindOutcome
  | repeatEcho : String → FindOutcome
  | pool : List AnswerEntry → FindOutcome
deriving DecidableEq

/-- The deterministic part of `_context_find` (everything up to and including
`filtered_answers`), given the resolved sanity draw. -/
def contextFindPool (st : ChatState) (c : ChatData) (sane : Bool) : FindOutcome :=
  if repeatOverride st.message_dict c.group_id c.raw_message then
    .repeatEcho c.raw_message
  else
    match st.context.find? (fun e => e.keywords == c.keywords) with
    | none => .noReply
    | some context =>
      let rand_threshold : Int := if sane then answer_threshold else 1
      let ban_keywords := banKeywordsOf context c.group_id
      let all_answers := candidateAnswers context c rand_threshold
      let filtered_answers := filterLoop ban_keywords c.group_id (fun _ => 0) all_answers
      if filtered_answers.isEmpty then .noReply else .pool filtered_answers

/-- The outcome of the weighted `random.choices` over the filtered pool
(every pool member has a strictly positive weight, so any index is possible). -/
def selectedAnswer (filtered : List AnswerEntry) (r : Rand) : AnswerEntry :=
  filtered.getD (r.pickAnswer % filtered.length) defaultAnswer

/-- The Answer Entry `_context_find` selects, when it selects one. -/
def contextFindSelected (st : ChatState) (c : ChatData) (r : Rand) :
    Option AnswerEntry :=
  match contextFindPool st c r.sane with
  | .pool filtered => some (selectedAnswer filtered r)
  | _ => none

/-- `Chat._context_find`: the list of reply texts, or `none`. -/
def contextFind (st : ChatState) (c : ChatData) (r : Rand) : Option (List String) :=
  match contextFindPool st c r.sane with
  | .noReply => none
  | .repeatEcho s => some [s]
  | .pool filtered =>
    let final_answer := selectedAnswer filtered r
    let answer_str :=
      final_answer.messages.getD (r.pickMessage % final_answer.messages.length) ""
    let n := answer_str.data.count '，'
    if 0 < n ∧ n ≤ 3 ∧ r.doSplit = true then strSplit answer_str '，'
    else [answer_str]

/-- The reply record appended per emitted fragment in `yield_results`
(`now` models the `time.time()` call). -/
def mkReplyRec (now : Int) (c : ChatData) (item : String) : ReplyRec :=
  ⟨now, c.raw_message, c.keywords, item⟩

/-- The reply-cache guard chain at the top of `Chat.answer`: the 3-second
rate limit, the own-echo check, and the five-identical-stimuli loop breaker. -/
def answerSuppressed (st : ChatState) (c : ChatData) : Bool :=
  match dictGet st.reply_dict c.group_id with
  | none => false
  | some group_reply =>
    match group_reply.getLast? with
    | none => false
    | some latest_reply =>
      decide (c.time - latest_reply.time < 3) ||
      (c.raw_message == latest_reply.reply) ||
      (decide (5 ≤ group_reply.length) &&
        (takeLast 5 group_reply).all (fun q => q.pre_raw_message == c.raw_message))

/-- `Chat.answer`: the guard chain, the `_context_find` call, and the reply
cache bookkeeping of `yield_results`.  The final
`group_reply = group_reply[-_save_reserve_size:]` of the source rebinds a
local name only, so the stored reply list is the untrimmed append. -/
def answer (st : ChatState) (c : ChatData) (now : Int) (r : Rand) :
    ChatState × Option (List String) :=
  if answerSuppressed st c then (st, none)
  else if c.is_plain_text && decide (c.plain_text.length < 2) then (st, none)
  else
    match contextFind st c r with
    | none => (st, none)
    | some results =>
      let group_reply := (dictGet st.reply_dict c.group_id).getD []
      let group_reply := group_reply ++ results.map (mkReplyRec now c)
      ({ st with reply_dict := dictSet st.reply_dict c.group_id group_reply },
       some results)

/-- The first `update_one` of `Chat.ban`: in the first context document whose
key matches and whose answers carry the keywords and the group id, force the
matching answer's count to the sentinel. -/
def banSetCount (ctx : List ContextEntry) (pre_keywords keywords : String)
    (gid : Int) : List ContextEntry :=
  updateFirstMatch
    (fun e => e.keywords == pre_keywords &&
      e.answers.any (fun a => a.keywords == keywords) &&
      e.answers.any (fun a => a.group_id == gid))
    (fun e =>
      { e with
        answers := updateFirstMatch
          (fun a => a.keywords == keywords && a.group_id == gid)
          (fun a => { a with count := -99999 }) e.answers })
    ctx

/-- The second `update_one` of `Chat.ban`: push a ban element onto the first
context document with the matching key. -/
def banPushEntry (ctx : List ContextEntry) (pre_keywords keywords : String)
    (gid : Int) : List ContextEntry :=
  updateFirstMatch (fun e => e.keywords == pre_keywords)
    (fun e => { e with ban := e.ban ++ [⟨keywords, gid⟩] })
    ctx

/-- `Chat.ban`: scan the group's reply cache most-recent-first for a reply
contained in the supplied text and, on the first hit, run the two context
updates. -/
def banOp (st : ChatState) (c : ChatData) : ChatState × Bool :=
  match dictGet st.reply_dict c.group_id with
  | none => (st, false)
  | some group_reply =>
    match group_reply.reverse.find? (fun q => strContains c.raw_message q.reply) with
    | none => (st, false)
    | some reply =>
      let ctx1 := banSetCount st.context reply.pre_keywords c.keywords c.group_id
      let ctx2 := banPushEntry ctx1 reply.pre_keywords c.keywords c.group_id
      ({ st with context := ctx2 }, true)

/-- One engine operation: a learned message, a retrieval, or a ban command. -/
inductive Op where
  | doLearn : ChatData → Bool → Op
  | doReply : ChatData → Int → Rand → Op
  | doBan : ChatData → Op

/-- Apply one operation to the engine state. -/
def applyOp (st : ChatState) : Op → ChatState
  | .doLearn c w => (learn st c w).fst
  | .doReply c now r => (answer st c now r).fst
  | .doBan c => (banOp st c).fst

/-- Apply a sequence of operations. -/
def applyOps (st : ChatState) (ops : List Op) : ChatState :=
  ops.foldl applyOp st

/-- The context document carries a ban element for `(K, G)`: true when the
first document keyed by `pk` records that ban. -/
def hasBan (e : ContextEntry) (K : String) (G : Int) : Bool :=
  e.ban.any (fun b => b.keywords == K && b.group_id == G)

/-- The first context document keyed `pk` exists and records a ban of the
response signature `K` for group `G`. -/
def banRecorded (ctx : List ContextEntry) (pk K : String) (G : Int) : Bool :=
  match ctx.find? (fun e => e.keywords == pk) with
  | some e => hasBan e K G
  | none => false

/-- Bool-valued `Option.all`: the predicate holds of the value, if any. -/
def optionAll (p : α → Bool) : Option α → Bool
  | none => true
  | some a => p a

theorem updateFirstMatch_cons {q : α → Bool} {f : α → α} (x : α) (xs : List α) :
    updateFirstMatch q f (x :: xs) =
      if q x then f x :: xs else x :: updateFirstMatch q f xs := rfl

theorem contextInsert_some (ctx : List ContextEntry) (c : ChatData) (pm : MsgRec) :
    contextInsert ctx c (some pm) =
      if pm.raw_message == c.raw_message then ctx
      else if strContains c.raw_message "[CQ:reply," then ctx
      else if ctx.any (fun e => e.keywords == pm.keywords) then
        updateFirstMatch (fun e => e.keywords == pm.keywords)
          (applyContextUpdate c) ctx
      else
        ctx ++ [⟨pm.keywords, c.time, 1,
                [⟨c.keywords, c.group_id, 1, [c.raw_message]⟩], []⟩] := rfl

theorem find?_append_of_some {p : α → Bool} {l1 l2 : List α} {x : α}
    (h : l1.find? p = some x) : (l1 ++ l2).find? p = some x := by
  induction l1 with
  | nil => simp at h
  | cons a l ih =>
    rw [List.cons_append]
    by_cases hp : p a = true
    · rw [List.find?_cons_of_pos _ hp] at h ⊢; exact h
    · rw [List.find?_cons_of_neg _ hp] at h ⊢; exact ih h

theorem updateFirstMatch_append_none {q : α → Bool} {f : α → α} {l1 l2 : List α}
    (h : ∀ x ∈ l1, q x = false) :
    updateFirstMatch q f (l1 ++ l2) = l1 ++ updateFirstMatch q f l2 := by
  induction l1 with
  | nil => rfl
  | cons a l ih =>
    have ha : q a = false := h a (List.mem_cons_self a l)
    rw [List.cons_append, updateFirstMatch_cons, if_neg (by simp [ha]),
      ih (fun x hx => h x (List.mem_cons_of_mem a hx)), List.cons_append]

theorem find?_isSome_of_any {p : α → Bool} {l : List α} (h : l.any p = true) :
    (l.find? p).isSome = true := by
  induction l with
  | nil => simp at h
  | cons a t ih =>
    by_cases hp : p a = true
    · rw [List.find?_cons_of_pos _ hp]; rfl
    · rw [List.find?_cons_of_neg _ hp]
      apply ih
      simpa [hp] using h

/-- C3: whenever the stimulus is absent, the response repeats the stimulus
verbatim, or the response quotes another message, the context-update step
leaves the context store completely unchanged. -/
theorem c3_context_update_noop (ctx : List ContextEntry) (c : ChatData)
    (pre : Option MsgRec)
    (h : pre = none ∨ (∃ pm, pre = some pm ∧ pm.raw_message = c.raw_message) ∨
      strContains c.raw_message "[CQ:reply," = true) :
    contextInsert ctx c pre = ctx := by
  rcases h with rfl | ⟨pm, rfl, hr⟩ | hcq
  · rfl
  · rw [contextInsert_some, if_pos (by simp [hr])]
  · cases pre with
    | none => rfl
    | some pm =>
      rw [contextInsert_some]
      by_cases h1 : (pm.raw_message == c.raw_message) = true
      · rw [if_pos h1]
      · rw [if_neg h1, if_pos hcq]

/-- Witness for the no-op theorem at a concrete quoting message. -/
theorem c3_context_update_noop_witness :
    contextInsert [] ⟨1, 2, "[CQ:reply,id=1]hi", "hi", 3, "hi"⟩ (some ⟨1, 4, "yo", true, "yo", "yo", 2⟩) = [] :=
  c3_context_update_noop _ _ _
    (Or.inr (Or.inr (by decide)))

/-- C2: learning a fresh stimulus/response pair creates one context document
with a single answer of count 1 holding the response text once; learning the
same pair again leaves a single answer of count 2 holding the text twice. -/
theorem c2_learn_once_then_twice (ctx : List ContextEntry) (c : ChatData) (p : MsgRec)
    (h1 : (p.raw_message == c.raw_message) = false)
    (h2 : strContains c.raw_message "[CQ:reply," = false)
    (h3 : ∀ e ∈ ctx, (e.keywords == p.keywords) = false) :
    contextInsert ctx c (some p) =
      ctx ++ [⟨p.keywords, c.time, 1, [⟨c.keywords, c.group_id, 1, [c.raw_message]⟩], []⟩] ∧
    contextInsert (contextInsert ctx c (some p)) c (some p) =
      ctx ++ [⟨p.keywords, c.time, 2,
        [⟨c.keywords, c.group_id, 2, [c.raw_message, c.raw_message]⟩], []⟩] := by
  have hany : ctx.any (fun e => e.keywords == p.keywords) = false := by
    rw [List.any_eq_false]
    intro e he
    simp [h3 e he]
  have first : contextInsert ctx c (some p) =
      ctx ++ [⟨p.keywords, c.time, 1, [⟨c.keywords, c.group_id, 1, [c.raw_message]⟩], []⟩] := by
    rw [contextInsert_some, if_neg (by simp [h1]), if_neg (by simp [h2]),
      if_neg (by simp [hany])]
  refine ⟨first, ?_⟩
  rw [first]
  rw [contextInsert_some, if_neg (by simp [h1]), if_neg (by simp [h2])]
  rw [if_pos (by simp [List.any_append])]
  rw [updateFirstMatch_append_none (fun x hx => by simp [h3 x hx])]
  simp [updateFirstMatch, applyContextUpdate]

/-- Witness for the learn-once-learn-twice theorem at concrete messages. -/
theorem c2_learn_once_then_twice_witness :
    contextInsert [] ⟨1, 8, "resp", "resp", 50, "k"⟩ (some ⟨1, 7, "stim", true, "stim", "p", 40⟩) =
      [⟨"p", 50, 1, [⟨"k", 1, 1, ["resp"]⟩], []⟩] ∧
    contextInsert (contextInsert [] ⟨1, 8, "resp", "resp", 50, "k"⟩ (some ⟨1, 7, "stim", true, "stim", "p", 40⟩))
        ⟨1, 8, "resp", "resp", 50, "k"⟩ (some ⟨1, 7, "stim", true, "stim", "p", 40⟩) =
      [⟨"p", 50, 2, [⟨"k", 1, 2, ["resp", "resp"]⟩], []⟩] :=
  c2_learn_once_then_twice [] ⟨1, 8, "resp", "resp", 50, "k"⟩ ⟨1, 7, "stim", true, "stim", "p", 40⟩
    (by decide) (by decide) (by intro e he; simp at he)

theorem all_take_of_all_take {p : α → Bool} {t : List α} {m n : Nat} (hmn : m ≤ n)
    (h : (t.take n).all p = true) : (t.take m).all p = true := by
  rw [List.all_eq_true] at h ⊢
  intro x hx
  refine h x ?_
  have heq : t.take m = (t.take n).take m := by
    rw [List.take_take, Nat.min_eq_left hmn]
  rw [heq] at hx
  exact List.take_subset _ _ hx

theorem repeatOverride_true {md : List (Int × List MsgRec)} {gid : Int} {raw : String}
    {l : List MsgRec} (hmd : dictGet md gid = some l)
    (hlen : repeat_threshold ≤ l.length)
    (hall : (l.reverse.take (repeat_threshold - 1)).all
      (fun m => m.raw_message == raw) = true) :
    repeatOverride md gid raw = true := by
  unfold repeatOverride
  rw [hmd]
  have hne : l.isEmpty = false := by
    cases l with
    | nil => simp [repeat_threshold] at hlen
    | cons a t => rfl
  simp [hne, hlen, hall]

theorem contextFind_of_repeat (st : ChatState) (c : ChatData) (r : Rand)
    (hro : repeatOverride st.message_dict c.group_id c.raw_message = true) :
    contextFind st c r = some [c.raw_message] := by
  unfold contextFind contextFindPool
  rw [if_pos hro]

/-- C10: when the group's cache has at least `repeat_threshold` messages and
merely the last `repeat_threshold - 1` of them equal the current raw text,
retrieval returns exactly that text, whatever the earlier cached messages and
the whole context store hold. -/
theorem c10_repeat_checks_last_two (st : ChatState) (c : ChatData) (r : Rand)
    (l : List MsgRec) (hmd : dictGet st.message_dict c.group_id = some l)
    (hlen : repeat_threshold ≤ l.length)
    (hall : (l.reverse.take (repeat_threshold - 1)).all
      (fun m => m.raw_message == c.raw_message) = true) :
    contextFind st c r = some [c.raw_message] :=
  contextFind_of_repeat st c r (repeatOverride_true hmd hlen hall)

/-- Witness for the last-two repeat theorem: the third-from-last cached
message differs, yet the repeat echo fires. -/
theorem c10_repeat_checks_last_two_witness :
    dictGet (ChatState.mk [(1, [⟨1, 9, "zzz", true, "zzz", "zzz", 0⟩,
        ⟨1, 7, "草", true, "草", "草", 1⟩, ⟨1, 7, "草", true, "草", "草", 1⟩])]
      [] [] 1 []).message_dict (1 : Int) =
      some [⟨1, 9, "zzz", true, "zzz", "zzz", 0⟩,
        ⟨1, 7, "草", true, "草", "草", 1⟩, ⟨1, 7, "草", true, "草", "草", 1⟩] ∧
    contextFind (ChatState.mk [(1, [⟨1, 9, "zzz", true, "zzz", "zzz", 0⟩,
        ⟨1, 7, "草", true, "草", "草", 1⟩, ⟨1, 7, "草", true, "草", "草", 1⟩])]
      [] [] 1 []) ⟨1, 8, "草", "草", 5, "草"⟩ ⟨true, 0, 0, false⟩ = some ["草"] :=
  ⟨by decide,
   c10_repeat_checks_last_two _ _ _
     [⟨1, 9, "zzz", true, "zzz", "zzz", 0⟩, ⟨1, 7, "草", true, "草", "草", 1⟩,
      ⟨1, 7, "草", true, "草", "草", 1⟩]
     (by decide) (by decide) (by decide)⟩

/-- C4: when the last `repeat_threshold` cached messages all equal the
current raw text, retrieval returns exactly that text, independent of the
context store, the ban lists and every random draw. -/
theorem c4_repeat_broadcast (st : ChatState) (c : ChatData) (r : Rand)
    (l : List MsgRec) (hmd : dictGet st.message_dict c.group_id = some l)
    (hlen : repeat_threshold ≤ l.length)
    (hall : (l.reverse.take repeat_threshold).all
      (fun m => m.raw_message == c.raw_message) = true) :
    contextFind st c r = some [c.raw_message] :=
  contextFind_of_repeat st c r
    (repeatOverride_true hmd hlen
      (all_take_of_all_take (Nat.sub_le repeat_threshold 1) hall))

/-- Witness for the repeat-broadcast theorem at three identical messages. -/
theorem c4_repeat_broadcast_witness :
    dictGet (ChatState.mk [(1, [⟨1, 7, "草", true, "草", "草", 1⟩,
        ⟨1, 7, "草", true, "草", "草", 1⟩, ⟨1, 7, "草", true, "草", "草", 1⟩])]
      [] [⟨"草", 0, 9, [⟨"k", 1, 9, ["other"]⟩], []⟩] 1 []).message_dict (1 : Int) =
      some [⟨1, 7, "草", true, "草", "草", 1⟩,
        ⟨1, 7, "草", true, "草", "草", 1⟩, ⟨1, 7, "草", true, "草", "草", 1⟩] ∧
    contextFind (ChatState.mk [(1, [⟨1, 7, "草", true, "草", "草", 1⟩,
        ⟨1, 7, "草", true, "草", "草", 1⟩, ⟨1, 7, "草", true, "草", "草", 1⟩])]
      [] [⟨"草", 0, 9, [⟨"k", 1, 9, ["other"]⟩], []⟩] 1 [])
      ⟨1, 8, "草", "草", 5, "草"⟩ ⟨true, 0, 0, false⟩ = some ["草"] :=
  ⟨by decide,
   c4_repeat_broadcast _ _ _
     [⟨1, 7, "草", true, "草", "草", 1⟩, ⟨1, 7, "草", true, "草", "草", 1⟩,
      ⟨1, 7, "草", true, "草", "草", 1⟩]
     (by decide) (by decide) (by decide)⟩

/-- C6 (amended): a plain-text message whose plain text is shorter than 2
characters never produces a reply, whatever the caches, the context store and
the random draws hold. -/
theorem c6_short_plain_text_suppressed (st : ChatState) (c : ChatData)
    (now : Int) (r : Rand)
    (h1 : c.is_plain_text = true) (h2 : c.plain_text.length < 2) :
    (answer st c now r).snd = none := by
  unfold answer
  by_cases hs : answerSuppressed st c = true
  · rw [if_pos hs]
  · rw [if_neg hs, if_pos (by simp [h1, h2])]

/-- Witness for the short-plain-text suppression theorem at `？`. -/
theorem c6_short_plain_text_suppressed_witness :
    ChatData.is_plain_text ⟨1, 2, "？", "？", 100, "？"⟩ = true ∧
    (ChatData.plain_text ⟨1, 2, "？", "？", 100, "？"⟩).length < 2 ∧
    (answer (ChatState.mk [] [] [] 1 []) ⟨1, 2, "？", "？", 100, "？"⟩ 100
      ⟨true, 0, 0, false⟩).snd = none :=
  ⟨by decide, by decide,
   c6_short_plain_text_suppressed _ _ _ _ (by decide) (by decide)⟩

/-- C6 as stated is false: an image message with empty plain text (shorter
than 2 characters) still gets a reply, because the length guard only fires on
plain-text messages. -/
theorem c6_counterexample :
    (ChatData.plain_text ⟨1, 2, "[CQ:image,file=a.jpg]", "", 100,
      "[CQ:image,file=a.jpg]"⟩).length < 2 ∧
    (answer
      (ChatState.mk [] []
        [⟨"[CQ:image,file=a.jpg]", 0, 3,
          [⟨"[CQ:image,file=b.jpg]", 1, 3, ["[CQ:image,file=b.jpg]"]⟩], []⟩] 1 [])
      ⟨1, 2, "[CQ:image,file=a.jpg]", "", 100, "[CQ:image,file=a.jpg]"⟩ 100
      ⟨true, 0, 0, false⟩).snd = some ["[CQ:image,file=b.jpg]"] := by
  constructor
  · decide
  · decide

/-- C5 fails on the code: after a reply batch is emitted into a group whose
reply cache already holds the full reserve size, the cache holds 101 records:
the trim `group_reply = group_reply[-_save_reserve_size:]` in `yield_results`
rebinds a local name and never stores the trimmed list back. -/
theorem c5_reply_cache_overflow :
    ((dictGet (answer
      (ChatState.mk
        [(1, [⟨1, 7, "hello world", true, "hello world", "hello world", 1⟩,
              ⟨1, 7, "hello world", true, "hello world", "hello world", 1⟩,
              ⟨1, 7, "hello world", true, "hello world", "hello world", 1⟩])]
        [(1, List.replicate 100 ⟨0, "x", "x", "y"⟩)] [] 1 [])
      ⟨1, 2, "hello world", "hello world", 10, "hello world"⟩ 10
      ⟨true, 0, 0, false⟩).fst.reply_dict 1).getD []).length = 101 ∧
    save_reserve_size < 101 := by
  constructor
  · decide
  · decide

theorem sync_context (w : Bool) (st : ChatState) (cur : Int) :
    (sync w st cur).context = st.context := rfl

theorem messageInsert_context (st : ChatState) (c : ChatData) (w : Bool) :
    (messageInsert st c w).context = st.context := by
  unfold messageInsert
  dsimp only
  split
  · rfl
  · split
    · exact sync_context ..
    · split
      · exact sync_context ..
      · rfl

/-- C7 (amended): when the group's previous message is from a different user
and a message from the current message's own user sits in the scanned slice
of the cache, `learn` attempts a second context update from the most recent
such message. -/
theorem c7_second_context_update (st : ChatState) (c : ChatData)
    (l : List MsgRec) (p : MsgRec)
    (h0 : ((strStrip c.raw_message).length == 0) = false)
    (hmd : dictGet st.message_dict c.group_id = some l)
    (hp : l.getLast? = some p)
    (hu : (p.user_id == c.user_id) = false)
    (hex : (l.reverse.take (save_reserve_size - 1)).any
      (fun m => m.user_id == c.user_id) = true) :
    (learnSecondTarget l c).isSome = true ∧
    learnSecondTarget l c =
      (l.reverse.take (save_reserve_size - 1)).find?
        (fun m => m.user_id == c.user_id) ∧
    (learn st c true).fst.context =
      contextInsert (contextInsert st.context c (some p)) c
        (learnSecondTarget l c) := by
  have hlst : learnSecondTarget l c =
      (l.reverse.take (save_reserve_size - 1)).find?
        (fun m => m.user_id == c.user_id) := by
    unfold learnSecondTarget
    rw [hp]
    dsimp only
    rw [if_neg (by simp [hu])]
  refine ⟨?_, hlst, ?_⟩
  · rw [hlst]
    exact find?_isSome_of_any hex
  · unfold learn
    rw [if_neg (by simp [h0])]
    dsimp only
    rw [messageInsert_context, hmd]
    dsimp only
    rw [hp]

/-- Witness for the second-context-update theorem: another user spoke in
between, and the scan finds the same user's earlier message. -/
theorem c7_second_context_update_witness :
    (learnSecondTarget [⟨1, 7, "a", true, "a", "a", 1⟩, ⟨1, 9, "b", true, "b", "b", 2⟩]
      ⟨1, 7, "c", "c", 3, "c"⟩).isSome = true ∧
    learnSecondTarget [⟨1, 7, "a", true, "a", "a", 1⟩, ⟨1, 9, "b", true, "b", "b", 2⟩]
      ⟨1, 7, "c", "c", 3, "c"⟩ =
      (([⟨1, 7, "a", true, "a", "a", 1⟩,
         ⟨1, 9, "b", true, "b", "b", 2⟩] : List MsgRec).reverse.take
        (save_reserve_size - 1)).find? (fun m => m.user_id == (7 : Int)) ∧
    (learn (ChatState.mk [(1, [⟨1, 7, "a", true, "a", "a", 1⟩, ⟨1, 9, "b", true, "b", "b", 2⟩])]
        [] [] 1 []) ⟨1, 7, "c", "c", 3, "c"⟩ true).fst.context =
      contextInsert
        (contextInsert [] ⟨1, 7, "c", "c", 3, "c"⟩ (some ⟨1, 9, "b", true, "b", "b", 2⟩))
        ⟨1, 7, "c", "c", 3, "c"⟩
        (learnSecondTarget [⟨1, 7, "a", true, "a", "a", 1⟩, ⟨1, 9, "b", true, "b", "b", 2⟩]
          ⟨1, 7, "c", "c", 3, "c"⟩) :=
  c7_second_context_update
    (ChatState.mk [(1, [⟨1, 7, "a", true, "a", "a", 1⟩, ⟨1, 9, "b", true, "b", "b", 2⟩])] [] [] 1 [])
    ⟨1, 7, "c", "c", 3, "c"⟩
    [⟨1, 7, "a", true, "a", "a", 1⟩, ⟨1, 9, "b", true, "b", "b", 2⟩]
    ⟨1, 9, "b", true, "b", "b", 2⟩
    (by decide) (by decide) (by decide) (by decide) (by decide)

/-- C7 as stated is false: when the previous message is from the same user,
no second context update is attempted although an earlier message from that
user (distinct from the previous one) is cached.  Had it been attempted, the
context store would differ. -/
theorem c7_counterexample :
    MsgRec.user_id ⟨1, 7, "a", true, "a", "a", 1⟩ =
      ChatData.user_id ⟨1, 7, "c", "c", 3, "c"⟩ ∧
    (⟨1, 7, "a", true, "a", "a", 1⟩ : MsgRec) ≠ ⟨1, 7, "b", true, "b", "b", 2⟩ ∧
    learnSecondTarget [⟨1, 7, "a", true, "a", "a", 1⟩, ⟨1, 7, "b", true, "b", "b", 2⟩]
      ⟨1, 7, "c", "c", 3, "c"⟩ = none ∧
    (learn (ChatState.mk [(1, [⟨1, 7, "a", true, "a", "a", 1⟩, ⟨1, 7, "b", true, "b", "b", 2⟩])]
        [] [] 1 []) ⟨1, 7, "c", "c", 3, "c"⟩ true).fst.context =
      contextInsert [] ⟨1, 7, "c", "c", 3, "c"⟩ (some ⟨1, 7, "b", true, "b", "b", 2⟩) ∧
    contextInsert
        (contextInsert [] ⟨1, 7, "c", "c", 3, "c"⟩ (some ⟨1, 7, "b", true, "b", "b", 2⟩))
        ⟨1, 7, "c", "c", 3, "c"⟩ (some ⟨1, 7, "a", true, "a", "a", 1⟩) ≠
      contextInsert [] ⟨1, 7, "c", "c", 3, "c"⟩ (some ⟨1, 7, "b", true, "b", "b", 2⟩) := by
  refine ⟨by decide, by decide, by decide, by decide, by decide⟩

/-- C9 (amended): on a flush whose collected batch is non-empty, the batch is
exactly the cached records strictly newer than the watermark, the in-memory
step trims every group list to its newest reserve-size records and sets the
watermark to the trigger time, and the durable write only appends that batch
afterwards: a failed write leaves the already-trimmed caches and the
watermark exactly as a successful one does. -/
theorem c9_flush_step (st : ChatState) (cur : Int)
    (hne : (((st.message_dict.map Prod.snd).flatten.filter
      (fun m => decide (st.late_save_time < m.time))).isEmpty) = false) :
    syncCore st.message_dict st.late_save_time cur =
      ((st.message_dict.map Prod.snd).flatten.filter
         (fun m => decide (st.late_save_time < m.time)),
       st.message_dict.map (fun p => (p.fst, takeLast save_reserve_size p.snd)),
       cur) ∧
    (sync false st cur).message_dict = (sync true st cur).message_dict ∧
    (sync false st cur).late_save_time = (sync true st cur).late_save_time ∧
    (sync false st cur).message_db = st.message_db ∧
    (sync true st cur).message_db =
      st.message_db ++ (syncCore st.message_dict st.late_save_time cur).fst := by
  have h1 : syncCore st.message_dict st.late_save_time cur =
      ((st.message_dict.map Prod.snd).flatten.filter
         (fun m => decide (st.late_save_time < m.time)),
       st.message_dict.map (fun p => (p.fst, takeLast save_reserve_size p.snd)),
       cur) := by
    unfold syncCore
    dsimp only
    rw [if_neg (by simp only [hne]; decide)]
  refine ⟨h1, ?_, ?_, ?_, ?_⟩ <;> simp [sync, h1]

/-- Witness for the flush-step theorem at one fresh cached record. -/
theorem c9_flush_step_witness :
    ((((ChatState.mk [(1, [⟨1, 7, "a", true, "a", "a", 15⟩])] [] [] 10 []).message_dict.map
        Prod.snd).flatten.filter
      (fun m => decide ((10 : Int) < m.time))).isEmpty) = false ∧
    syncCore [(1, [⟨1, 7, "a", true, "a", "a", 15⟩])] 10 20 =
      ([⟨1, 7, "a", true, "a", "a", 15⟩], [(1, [⟨1, 7, "a", true, "a", "a", 15⟩])], 20) :=
  ⟨by decide,
   ((c9_flush_step (ChatState.mk [(1, [⟨1, 7, "a", true, "a", "a", 15⟩])] [] [] 10 []) 20
      (by decide)).1)⟩

/-- C9 as stated is false: on a flush trigger at time 20 where the only
cached record is older than the watermark 10, the collected batch is empty
and the code returns early, leaving the watermark at 10 instead of setting it
to the trigger time. -/
theorem c9_counterexample :
    (syncCore [(1, [⟨1, 7, "a", true, "a", "a", 5⟩])] 10 20).snd.snd = 10 ∧
    (syncCore [(1, [⟨1, 7, "a", true, "a", "a", 5⟩])] 10 20).snd.snd ≠ 20 ∧
    (syncCore [(1, [⟨1, 7, "a", true, "a", "a", 5⟩])] 10 20).fst = [] := by
  refine ⟨by decide, by decide, by decide⟩

theorem filterLoop_cons (banKs : List String) (gid : Int) (counts : String → Nat)
    (a : AnswerEntry) (rest : List AnswerEntry) :
    filterLoop banKs gid counts (a :: rest) =
      if banKs.contains a.keywords then filterLoop banKs gid counts rest
      else if a.group_id == gid then a :: filterLoop banKs gid counts rest
      else if counts a.keywords + 1 == cross_group_threshold then
        a :: filterLoop banKs gid (bumpCount counts a.keywords) rest
      else filterLoop banKs gid (bumpCount counts a.keywords) rest := rfl

theorem filterLoop_filter_target {banKs : List String} {gid : Int} {K : String}
    (hb : banKs.contains K = false) (l : List AnswerEntry) :
    ∀ counts : String → Nat,
      (∀ a ∈ l, a.keywords = K → (a.group_id == gid) = false) →
      (filterLoop banKs gid counts l).filter (fun a => a.keywords == K) =
        if counts K < 3 then
          ((l.filter (fun a => a.keywords == K)).drop (2 - counts K)).take 1
        else [] := by
  induction l with
  | nil =>
    intro counts _
    simp [filterLoop]
  | cons a rest ih =>
    intro counts hf
    have hftail : ∀ x ∈ rest, x.keywords = K → (x.group_id == gid) = false :=
      fun x hx hxK => hf x (List.mem_cons_of_mem a hx) hxK
    rw [filterLoop_cons]
    by_cases haK : a.keywords = K
    · have hnb : banKs.contains a.keywords = false := by rw [haK]; exact hb
      have hng : (a.group_id == gid) = false := hf a (List.mem_cons_self a rest) haK
      rw [if_neg (by rw [hnb]; decide), if_neg (by rw [hng]; decide)]
      have hbump : bumpCount counts a.keywords K = counts K + 1 := by
        simp [bumpCount, haK]
      have hfc : (a :: rest).filter (fun x => x.keywords == K) =
          a :: rest.filter (fun x => x.keywords == K) := by
        simp [List.filter_cons, haK]
      by_cases h3 : (counts a.keywords + 1 == cross_group_threshold) = true
    -- the tally reaches the threshold at this entry
      · have h3n : counts K + 1 = 3 := by
          have h := h3
          rw [haK] at h
          simpa [cross_group_threshold] using h
        rw [if_pos h3]
        have hrest := ih (bumpCount counts a.keywords) hftail
        rw [hbump, h3n] at hrest
        rw [if_neg (by omega)] at hrest
        rw [List.filter_cons, if_pos (by simp [haK]), hrest, hfc]
        have hcK : counts K = 2 := by omega
        rw [if_pos (by omega), hcK]
        simp
      · rw [if_neg h3]
        have h3n : counts K + 1 ≠ 3 := by
          intro hcon
          refine h3 ?_
          rw [haK, hcon]
          simp [cross_group_threshold]
        have hrest := ih (bumpCount counts a.keywords) hftail
        rw [hbump] at hrest
        rw [hrest, hfc]
        by_cases hlt : counts K < 3
        -- the tally stays below the threshold: the sought entry is further on
        · have hle : counts K ≤ 1 := by omega
          rw [if_pos (by omega), if_pos hlt]
          have e1 : 2 - counts K = (2 - (counts K + 1)) + 1 := by omega
          rw [e1, List.drop_succ_cons]
        -- the tally had already passed the threshold: nothing more is added
        · rw [if_neg (by omega), if_neg hlt]
    · have hbump : bumpCount counts a.keywords K = counts K := by
        simp only [bumpCount]
        rw [if_neg (fun hcon => haK hcon.symm)]
      have hfc : (a :: rest).filter (fun x => x.keywords == K) =
          rest.filter (fun x => x.keywords == K) := by
        simp [List.filter_cons, haK]
      rw [hfc]
      by_cases hban : banKs.contains a.keywords = true
      · rw [if_pos hban]
        exact ih counts hftail
      · rw [if_neg hban]
        by_cases hloc : (a.group_id == gid) = true
        · rw [if_pos hloc]
          rw [List.filter_cons, if_neg (by simp [haK])]
          exact ih counts hftail
        · rw [if_neg hloc]
          by_cases h3 : (counts a.keywords + 1 == cross_group_threshold) = true
          · rw [if_pos h3]
            rw [List.filter_cons, if_neg (by simp [haK])]
            rw [ih (bumpCount counts a.keywords) hftail, hbump]
          · rw [if_neg h3]
            rw [ih (bumpCount counts a.keywords) hftail, hbump]

/-- C8: among retrieval candidates whose response signature `K` is un-banned
and only ever carried by foreign-group entries, the filtered pool keeps the
`K`-signature entries `drop (threshold - 1), take 1` of them: exactly the
threshold-crossing occurrence when at least `cross_group_threshold` carry
`K`, and none when fewer do. -/
theorem c8_cross_group_promotion (banKs : List String) (gid : Int) (K : String)
    (l : List AnswerEntry)
    (hb : banKs.contains K = false)
    (hf : ∀ a ∈ l, a.keywords = K → (a.group_id == gid) = false) :
    (filterLoop banKs gid (fun _ => 0) l).filter (fun a => a.keywords == K) =
      ((l.filter (fun a => a.keywords == K)).drop (cross_group_threshold - 1)).take 1 := by
  have h := filterLoop_filter_target hb l (fun _ => 0) hf
  simpa [cross_group_threshold] using h

/-- Witness for the cross-group promotion theorem: four foreign entries share
the signature; exactly the third survives the filter. -/
theorem c8_cross_group_promotion_witness :
    (([] : List String).contains "k") = false ∧
    (filterLoop [] 1 (fun _ => 0)
        [⟨"k", 2, 5, ["m"]⟩, ⟨"k", 3, 5, ["m"]⟩, ⟨"k", 4, 5, ["m"]⟩, ⟨"k", 5, 5, ["m"]⟩]).filter
        (fun a => a.keywords == "k") =
      ((([⟨"k", 2, 5, ["m"]⟩, ⟨"k", 3, 5, ["m"]⟩, ⟨"k", 4, 5, ["m"]⟩,
          ⟨"k", 5, 5, ["m"]⟩] : List AnswerEntry).filter
          (fun a => a.keywords == "k")).drop (cross_group_threshold - 1)).take 1 :=
  ⟨by decide,
   c8_cross_group_promotion [] 1 "k"
     [⟨"k", 2, 5, ["m"]⟩, ⟨"k", 3, 5, ["m"]⟩, ⟨"k", 4, 5, ["m"]⟩, ⟨"k", 5, 5, ["m"]⟩]
     (by decide) (by decide)⟩

theorem contains_of_mem {l : List String} {s : String} (h : s ∈ l) :
    l.contains s = true := by
  simp [List.contains, List.elem_eq_mem, h]

theorem hasBan_of_ban_eq {e e1 : ContextEntry} {K : String} {G : Int}
    (hb : e1.ban = e.ban) (h : hasBan e K G = true) : hasBan e1 K G = true := by
  unfold hasBan at h ⊢
  rw [hb]
  exact h

theorem banRecorded_updateFirstMatch {q : ContextEntry → Bool}
    {f : ContextEntry → ContextEntry} {pk K : String} {G : Int}
    (hk : ∀ e, (f e).keywords = e.keywords)
    (hb : ∀ e, hasBan e K G = true → hasBan (f e) K G = true)
    {ctx : List ContextEntry} (h : banRecorded ctx pk K G = true) :
    banRecorded (updateFirstMatch q f ctx) pk K G = true := by
  induction ctx with
  | nil => exact h
  | cons e l ih =>
    rw [updateFirstMatch_cons]
    by_cases hq : q e = true
    · rw [if_pos hq]
      by_cases he : (e.keywords == pk) = true
      · unfold banRecorded at h ⊢
        rw [List.find?_cons_of_pos (p := fun x : ContextEntry => x.keywords == pk) _ he] at h
        rw [List.find?_cons_of_pos (p := fun x : ContextEntry => x.keywords == pk) _
          (by show ((f e).keywords == pk) = true; rw [hk e]; exact he)]
        exact hb e h
      · unfold banRecorded at h ⊢
        rw [List.find?_cons_of_neg (p := fun x : ContextEntry => x.keywords == pk) _ he] at h
        rw [List.find?_cons_of_neg (p := fun x : ContextEntry => x.keywords == pk) _
          (by show ¬((f e).keywords == pk) = true; rw [hk e]; exact he)]
        exact h
    · rw [if_neg hq]
      by_cases he : (e.keywords == pk) = true
      · unfold banRecorded at h ⊢
        rw [List.find?_cons_of_pos (p := fun x : ContextEntry => x.keywords == pk) _ he] at h ⊢
        exact h
      · unfold banRecorded at h ⊢
        rw [List.find?_cons_of_neg (p := fun x : ContextEntry => x.keywords == pk) _ he] at h ⊢
        exact ih h

theorem banRecorded_append {ctx l2 : List ContextEntry} {pk K : String} {G : Int}
    (h : banRecorded ctx pk K G = true) :
    banRecorded (ctx ++ l2) pk K G = true := by
  unfold banRecorded at h ⊢
  cases hf : ctx.find? (fun e => e.keywords == pk) with
  | none => rw [hf] at h; simp at h
  | some e =>
    rw [hf] at h
    rw [find?_append_of_some hf]
    exact h

theorem applyContextUpdate_keywords (c : ChatData) (e : ContextEntry) :
    (applyContextUpdate c e).keywords = e.keywords := by
  unfold applyContextUpdate
  split <;> rfl

theorem applyContextUpdate_ban (c : ChatData) (e : ContextEntry) :
    (applyContextUpdate c e).ban = e.ban := by
  unfold applyContextUpdate
  split <;> rfl

theorem banRecorded_contextInsert {ctx : List ContextEntry} {pk K : String}
    {G : Int} (c : ChatData) (pre : Option MsgRec)
    (h : banRecorded ctx pk K G = true) :
    banRecorded (contextInsert ctx c pre) pk K G = true := by
  cases pre with
  | none => exact h
  | some pm =>
    rw [contextInsert_some]
    by_cases h1 : (pm.raw_message == c.raw_message) = true
    · rw [if_pos h1]; exact h
    · rw [if_neg h1]
      by_cases h2 : strContains c.raw_message "[CQ:reply," = true
      · rw [if_pos h2]; exact h
      · rw [if_neg h2]
        by_cases h3 : (ctx.any fun e => e.keywords == pm.keywords) = true
        · rw [if_pos h3]
          exact banRecorded_updateFirstMatch
            (applyContextUpdate_keywords c)
            (fun e => hasBan_of_ban_eq (applyContextUpdate_ban c e)) h
        · rw [if_neg h3]
          exact banRecorded_append h

theorem banRecorded_banSetCount {ctx : List ContextEntry} {pk K : String} {G : Int}
    (pre_keywords keywords : String) (gid : Int)
    (h : banRecorded ctx pk K G = true) :
    banRecorded (banSetCount ctx pre_keywords keywords gid) pk K G = true := by
  unfold banSetCount
  refine banRecorded_updateFirstMatch ?_ ?_ h
  · exact fun e => rfl
  · exact fun e => hasBan_of_ban_eq rfl

theorem banRecorded_banPushEntry {ctx : List ContextEntry} {pk K : String} {G : Int}
    (pre_keywords keywords : String) (gid : Int)
    (h : banRecorded ctx pk K G = true) :
    banRecorded (banPushEntry ctx pre_keywords keywords gid) pk K G = true := by
  unfold banPushEntry
  refine banRecorded_updateFirstMatch ?_ ?_ h
  · exact fun e => rfl
  · intro e he
    unfold hasBan at he ⊢
    rw [List.any_append, he]
    rfl

theorem answer_context (st : ChatState) (c : ChatData) (now : Int) (r : Rand) :
    (answer st c now r).fst.context = st.context := by
  unfold answer
  by_cases hs : answerSuppressed st c = true
  · rw [if_pos hs]
  · rw [if_neg hs]
    by_cases hg : (c.is_plain_text && decide (c.plain_text.length < 2)) = true
    · rw [if_pos hg]
    · rw [if_neg hg]
      cases contextFind st c r <;> rfl

theorem banRecorded_learn {st : ChatState} {pk K : String} {G : Int}
    (c : ChatData) (w : Bool) (h : banRecorded st.context pk K G = true) :
    banRecorded (learn st c w).fst.context pk K G = true := by
  unfold learn
  by_cases h0 : ((strStrip c.raw_message).length == 0) = true
  · rw [if_pos h0]; exact h
  · rw [if_neg h0]
    dsimp only
    rw [messageInsert_context]
    cases hmd : dictGet st.message_dict c.group_id with
    | none => exact h
    | some l =>
      dsimp only
      exact banRecorded_contextInsert c _ (banRecorded_contextInsert c _ h)

theorem banRecorded_banOp {st : ChatState} {pk K : String} {G : Int}
    (c : ChatData) (h : banRecorded st.context pk K G = true) :
    banRecorded (banOp st c).fst.context pk K G = true := by
  unfold banOp
  cases hg : dictGet st.reply_dict c.group_id with
  | none => exact h
  | some gr =>
    dsimp only
    cases hr : gr.reverse.find? (fun q => strContains c.raw_message q.reply) with
    | none => exact h
    | some reply =>
      dsimp only
      exact banRecorded_banPushEntry _ _ _ (banRecorded_banSetCount _ _ _ h)

theorem banRecorded_applyOp {st : ChatState} {pk K : String} {G : Int} (op : Op)
    (h : banRecorded st.context pk K G = true) :
    banRecorded (applyOp st op).context pk K G = true := by
  cases op with
  | doLearn c w => exact banRecorded_learn c w h
  | doReply c now r =>
    show banRecorded (answer st c now r).fst.context pk K G = true
    rw [answer_context]
    exact h
  | doBan c => exact banRecorded_banOp c h

theorem banRecorded_applyOps {pk K : String} {G : Int} (ops : List Op) :
    ∀ st : ChatState, banRecorded st.context pk K G = true →
      banRecorded (applyOps st ops).context pk K G = true := by
  induction ops with
  | nil => intro st h; exact h
  | cons op rest ih =>
    intro st h
    exact ih (applyOp st op) (banRecorded_applyOp op h)

theorem keywords_not_banned_of_mem_filterLoop {banKs : List String} {gid : Int}
    (l : List AnswerEntry) :
    ∀ (counts : String → Nat) (a : AnswerEntry),
      a ∈ filterLoop banKs gid counts l → banKs.contains a.keywords = false := by
  induction l with
  | nil =>
    intro counts a h
    simp [filterLoop] at h
  | cons x rest ih =>
    intro counts a h
    rw [filterLoop_cons] at h
    by_cases hban : banKs.contains x.keywords = true
    · rw [if_pos hban] at h
      exact ih counts a h
    · rw [if_neg hban] at h
      by_cases hloc : (x.group_id == gid) = true
      · rw [if_pos hloc] at h
        rcases List.mem_cons.mp h with rfl | h2
        · cases hx : banKs.contains a.keywords
          · rfl
          · exact absurd hx hban
        · exact ih counts a h2
      · rw [if_neg hloc] at h
        by_cases h3 : (counts x.keywords + 1 == cross_group_threshold) = true
        · rw [if_pos h3] at h
          rcases List.mem_cons.mp h with rfl | h2
          · cases hx : banKs.contains a.keywords
            · rfl
            · exact absurd hx hban
          · exact ih _ a h2
        · rw [if_neg h3] at h
          exact ih _ a h

theorem selectedAnswer_mem (filtered : List AnswerEntry) (r : Rand)
    (h : filtered ≠ []) : selectedAnswer filtered r ∈ filtered := by
  unfold selectedAnswer
  have hlen : 0 < filtered.length := List.length_pos.mpr h
  have hlt : r.pickAnswer % filtered.length < filtered.length :=
    Nat.mod_lt _ hlen
  rw [List.getD_eq_getElem?_getD, List.getElem?_eq_getElem hlt]
  exact List.getElem_mem hlt

theorem mem_banKeywords_of_hasBan {e : ContextEntry} {K : String} {G : Int}
    (h : hasBan e K G = true) : K ∈ banKeywordsOf e G := by
  unfold hasBan at h
  rcases List.any_eq_true.mp h with ⟨b, hb, hp⟩
  rcases (Bool.and_eq_true _ _).mp hp with ⟨hK, hG⟩
  have hKeq : b.keywords = K := by simpa using hK
  unfold banKeywordsOf
  rw [← hKeq]
  exact List.mem_map_of_mem _ (List.mem_filter.mpr ⟨hb, hG⟩)

theorem not_banned_selected_aux {banKs : List String} {gid : Int}
    {counts : String → Nat} {l : List AnswerEntry} {K : String} (r : Rand)
    (hne : filterLoop banKs gid counts l ≠ [])
    (hKmem : K ∈ banKs) :
    (!((selectedAnswer (filterLoop banKs gid counts l) r).keywords == K)) = true := by
  have hmem := selectedAnswer_mem _ r hne
  have hnb := keywords_not_banned_of_mem_filterLoop _ _ _ hmem
  cases hbeq : ((selectedAnswer (filterLoop banKs gid counts l) r).keywords == K) with
  | false => rfl
  | true =>
    have hKeq : (selectedAnswer (filterLoop banKs gid counts l) r).keywords = K := by
      simpa using hbeq
    rw [hKeq, contains_of_mem hKmem] at hnb
    exact absurd hnb (by decide)

theorem banned_keyword_not_selected (st : ChatState) (c : ChatData) (r : Rand)
    {pk K : String} {G : Int}
    (h : banRecorded st.context pk K G = true) (hk : c.keywords = pk)
    (hg : c.group_id = G) :
    optionAll (fun a => !(a.keywords == K)) (contextFindSelected st c r) = true := by
  unfold contextFindSelected contextFindPool
  by_cases hro : repeatOverride st.message_dict c.group_id c.raw_message = true
  · rw [if_pos hro]; rfl
  · rw [if_neg hro]
    unfold banRecorded at h
    rw [← hk] at h
    cases hfind : st.context.find? (fun e => e.keywords == c.keywords) with
    | none => rfl
    | some e =>
      rw [hfind] at h
      dsimp only
      by_cases hemp : (filterLoop (banKeywordsOf e c.group_id) c.group_id
          (fun _ => 0) (candidateAnswers e c
            (if r.sane = true then answer_threshold else 1))).isEmpty = true
      · rw [if_pos hemp]; rfl
      · rw [if_neg hemp]
        have hne : (filterLoop (banKeywordsOf e c.group_id) c.group_id
            (fun _ => 0) (candidateAnswers e c
              (if r.sane = true then answer_threshold else 1))) ≠ [] := by
          intro hcon
          rw [hcon] at hemp
          exact hemp rfl
        have hKmem : K ∈ banKeywordsOf e c.group_id := by
          rw [hg]
          refine mem_banKeywords_of_hasBan ?_
          simpa using h
        exact not_banned_selected_aux r hne hKmem

/-- C1: once a ban of response signature `K` for group `G` is recorded on the
context document keyed `pk`, no retrieval in group `G` that looks that
document up ever selects an answer with signature `K`, after any sequence of
learn, retrieval and ban operations — re-learning the pair included. -/
theorem c1_ban_permanent (st : ChatState) (ops : List Op) (pk K : String)
    (G : Int) (c : ChatData) (r : Rand)
    (h : banRecorded st.context pk K G = true)
    (hk : c.keywords = pk) (hg : c.group_id = G) :
    optionAll (fun a => !(a.keywords == K))
      (contextFindSelected (applyOps st ops) c r) = true :=
  banned_keyword_not_selected (applyOps st ops) c r
    (banRecorded_applyOps ops st h) hk hg

/-- Witness for the permanent-ban theorem: the banned pair is re-learned to a
fresh count, yet the selection never yields its signature. -/
theorem c1_ban_permanent_witness :
    banRecorded [⟨"p", 0, 5, [⟨"k", 5, 10, ["bad"]⟩], [⟨"k", 5⟩]⟩] "p" "k" 5 = true ∧
    optionAll (fun a => !(a.keywords == "k"))
      (contextFindSelected
        (applyOps
          (ChatState.mk [(5, [⟨5, 3, "stim", true, "stim", "p", 40⟩])] []
            [⟨"p", 0, 5, [⟨"k", 5, 10, ["bad"]⟩], [⟨"k", 5⟩]⟩] 1 [])
          [Op.doLearn ⟨5, 9, "bad", "bad", 50, "k"⟩ true])
        ⟨5, 2, "stim", "stim", 99, "p"⟩ ⟨false, 0, 0, false⟩) = true :=
  ⟨by decide,
   c1_ban_permanent
     (ChatState.mk [(5, [⟨5, 3, "stim", true, "stim", "p", 40⟩])] []
       [⟨"p", 0, 5, [⟨"k", 5, 10, ["bad"]⟩], [⟨"k", 5⟩]⟩] 1 [])
     [Op.doLearn ⟨5, 9, "bad", "bad", 50, "k"⟩ true] "p" "k" 5
     ⟨5, 2, "stim", "stim", 99, "p"⟩ ⟨false, 0, 0, false⟩
     (by decide) rfl rfl⟩

end PallasBot
